import Mathlib

/-!
Shallow embedding of the arky Slack integration (source files
src/unnamed/part_000 and src/src/tools.ts): request-signature
verification, the outbound delivery retry loop, the duplicate-aware
reminder ledger, response orchestration, and the event dispatcher.
Strings are modelled as Lean strings; character-level processing works
on the underlying character lists.  External collaborators (the HMAC
primitive, the JSON parser, the completion engine, the provider of
send-attempt outcomes, wall-clock readings) are passed in as explicit
parameters, mirroring how the code consumes them through narrow
interfaces.
-/

namespace Arky

/-! ### JavaScript string primitives, modelled over character lists -/

/-- One accumulating pass of splitting a character list at separator
characters; mirrors JavaScript string splitting, which emits the piece
gathered so far at every separator (including empty pieces). -/
def splitAux (p : Char → Bool) : List Char → List Char → List (List Char)
  | [], acc => [acc.reverse]
  | c :: cs, acc =>
    if p c then acc.reverse :: splitAux p cs [] else splitAux p cs (c :: acc)

/-- JavaScript-style split of a character list at every character
satisfying `p`. -/
def splitOnPred (p : Char → Bool) (l : List Char) : List (List Char) :=
  splitAux p l []

/-- JavaScript `String.prototype.includes`: `needle` occurs as a
contiguous substring of `hay`. -/
def includesL (hay needle : List Char) : Bool :=
  hay.tails.any (fun t => needle.isPrefixOf t)

/-- JavaScript `String.prototype.toLowerCase`, character by character. -/
def jsToLower (l : List Char) : List Char := l.map Char.toLower

/-- JavaScript `String.prototype.trim`: drop whitespace from both ends. -/
def trimL (l : List Char) : List Char :=
  ((l.dropWhile Char.isWhitespace).reverse.dropWhile Char.isWhitespace).reverse

/-- `trim` on Lean strings, via `trimL`. -/
def jsTrimS (s : String) : String := ⟨trimL s.data⟩

/-- Value of a list of decimal digit characters. -/
def digitsVal (l : List Char) : Nat :=
  l.foldl (fun n c => n * 10 + (c.toNat - 48)) 0

/-- JavaScript `parseInt` with the default radix on ordinary decimal
input: skip leading whitespace, read an optional sign and then the
longest prefix of decimal digits (trailing junk is ignored); `none`
models the `NaN` result produced when no digit is found. -/
def jsParseInt (s : String) : Option Int :=
  match s.data.dropWhile Char.isWhitespace with
  | '-' :: r =>
    if (r.takeWhile Char.isDigit).isEmpty then none
    else some (-(digitsVal (r.takeWhile Char.isDigit) : Int))
  | '+' :: r =>
    if (r.takeWhile Char.isDigit).isEmpty then none
    else some ((digitsVal (r.takeWhile Char.isDigit) : Int))
  | l =>
    if (l.takeWhile Char.isDigit).isEmpty then none
    else some ((digitsVal (l.takeWhile Char.isDigit) : Int))

/-! ### Signature verifier (`verifySlackRequest`, part_000 lines 43-91) -/

/-- The character codes of a string, as produced by `charCodeAt`. -/
def charCodes (s : String) : List Nat := s.data.map Char.toNat

/-- The XOR-accumulate loop of the constant-time comparison:
`result |= a.charCodeAt(i) ^ b.charCodeAt(i)` folded over all
positions. -/
def xorAccum (a b : List Nat) : Nat :=
  (a.zip b).foldl (fun acc p => acc ||| (p.1 ^^^ p.2)) 0

/-- The length-check-then-XOR-accumulate comparison of
`verifySlackRequest`: reject on a length mismatch, otherwise fold every
character-code pair into one status word and declare equality iff the
accumulator ends at zero. -/
def constantTimeEq (a b : String) : Bool :=
  if (charCodes a).length != (charCodes b).length then false
  else xorAccum (charCodes a) (charCodes b) == 0

/-- `verifySlackRequest` (part_000 lines 43-91).  `hmacHex` stands for
the hex digest of HMAC-SHA256 with the given key, `now` for
`Math.floor(Date.now() / 1000)`.  When the timestamp header does not
parse as a number, `Math.abs(now - NaN) > 300` is false in JavaScript,
so the replay check does not reject and control falls through to the
signature comparison. -/
def verifySlackRequest (hmacHex : String → String → String) (now : Int)
    (signingSecret timestamp body signature : String) : Bool :=
  let replayReject : Bool :=
    match jsParseInt timestamp with
    | some n => decide (300 < (now - n).natAbs)
    | none => false
  if replayReject then false
  else
    let computedSignature :=
      "v0=" ++ hmacHex signingSecret ("v0:" ++ timestamp ++ ":" ++ body)
    constantTimeEq computedSignature signature

/-! ### Outbound delivery client (`sendSlackMessage`, part_000 lines 96-156) -/

/-- Outcome of one `chat.postMessage` attempt, as observed by the retry
loop: success, a rate-limit response (with the parsed `Retry-After`
header in seconds when present), any other provider-level error (with
the possibly-absent `error` field), or a transport failure thrown by
`fetch` (with its message). -/
inductive AttemptResult where
  | ok
  | rateLimited (retryAfterSeconds : Option Nat)
  | apiError (err : Option String)
  | networkError (msg : String)
deriving DecidableEq

/-- How a `sendSlackMessage` call ends: normal return, or a thrown
error carrying the given message. -/
inductive DeliveryResult where
  | ok
  | error (msg : String)
deriving DecidableEq

/-- The observable behaviour of one `sendSlackMessage` call: how many
attempts were issued, the waits (in milliseconds) performed between
attempts in order, and the final outcome. -/
structure SendOut where
  attempts : Nat
  waits : List Nat
  outcome : DeliveryResult
deriving DecidableEq

/-- `result.error || "Unknown Slack API error"`: an absent or empty
error field falls back to the generic message. -/
def apiErrMsg : Option String → String
  | some s => if s == "" then "Unknown Slack API error" else s
  | none => "Unknown Slack API error"

/-- The retry loop of `sendSlackMessage`.  `provider i` is the outcome
of attempt number `i` (0-based).  Rate-limited attempts wait
`retryAfterSeconds * 1000` ms when the header is present and
`2 ^ attempt * 1000` ms otherwise, and do not update the recorded last
error; other failures record the error and wait `2 ^ attempt * 1000` ms
only while attempts remain. -/
def sendLoop (provider : Nat → AttemptResult) (maxRetries : Nat) :
    Nat → Option String → List Nat → SendOut
  | attempt, lastError, waits =>
    if h : attempt < maxRetries then
      match provider attempt with
      | .ok => ⟨attempt + 1, waits, .ok⟩
      | .rateLimited ra =>
        sendLoop provider maxRetries (attempt + 1) lastError
          (waits ++ [match ra with | some s => s * 1000 | none => 2 ^ attempt * 1000])
      | .apiError e =>
        if attempt < maxRetries - 1 then
          sendLoop provider maxRetries (attempt + 1) (some (apiErrMsg e))
            (waits ++ [2 ^ attempt * 1000])
        else
          sendLoop provider maxRetries (attempt + 1) (some (apiErrMsg e)) waits
      | .networkError m =>
        if attempt < maxRetries - 1 then
          sendLoop provider maxRetries (attempt + 1) (some m)
            (waits ++ [2 ^ attempt * 1000])
        else
          sendLoop provider maxRetries (attempt + 1) (some m) waits
    else
      ⟨attempt, waits, .error (lastError.getD ("Failed to send Slack message"))⟩
  termination_by attempt _ _ => maxRetries - attempt

/-- `sendSlackMessage` (part_000 lines 96-156), abstracted over the
per-attempt outcomes; `maxRetries` defaults to 3 in the source. -/
def sendSlackMessage (provider : Nat → AttemptResult) (maxRetries : Nat) : SendOut :=
  sendLoop provider maxRetries 0 none []

/-- The last provider-level or transport error observed among attempts
numbered below `n` (rate-limit responses record no error), with the
`result.error || default` fallback applied. -/
def lastErrBelow (provider : Nat → AttemptResult) : Nat → Option String
  | 0 => none
  | n + 1 =>
    match provider n with
    | .apiError e => some (apiErrMsg e)
    | .networkError m => some m
    | _ => lastErrBelow provider n

/-! ### Duplicate-aware ledger (`captureReminder`, part_000 lines
235-283; the same heuristic appears in src/src/tools.ts lines 164-209) -/

/-- Outcome of a ledger append: the reminder was saved, or similar
existing lines were found and returned instead. -/
inductive CaptureOutcome where
  | saved
  | similarFound (entries : List (List Char))
deriving DecidableEq

/-- Result of one `captureReminder` execution: the outcome together
with the ledger blob content after the call. -/
structure CaptureOut where
  outcome : CaptureOutcome
  blob : List Char
deriving DecidableEq

/-- The significant tokens of a reminder text: lower-case it, split on
whitespace, keep the words longer than 3 characters. -/
def significantTokens (reminder : List Char) : List (List Char) :=
  (splitOnPred Char.isWhitespace (jsToLower reminder)).filter
    (fun w => decide (3 < w.length))

/-- `existingContent.split("\n").filter((line) => line.trim() !== "")`:
the non-blank lines of the ledger blob. -/
def nonBlankLines (content : List Char) : List (List Char) :=
  (splitOnPred (fun c => c == '\n') content).filter
    (fun line => line.any (fun c => !c.isWhitespace))

/-- The similar-entry scan: keep each existing line in which at least
two of the reminder's significant tokens occur as substrings of the
lower-cased line. -/
def findSimilar (existingLines : List (List Char)) (reminder : List Char) :
    List (List Char) :=
  existingLines.filter (fun line =>
    decide (2 ≤ ((significantTokens reminder).filter
      (fun w => includesL (jsToLower line) w)).length))

/-- The appended ledger line without its trailing newline:
`"[{today}] {reminder}"`. -/
def entryBody (today reminder : List Char) : List Char :=
  ('[' :: today) ++ (']' :: ' ' :: reminder)

/-- The appended ledger line `"[{today}] {reminder}\n"`. -/
def entryLine (today reminder : List Char) : List Char :=
  entryBody today reminder ++ ['\n']

/-- `captureReminder` (part_000 lines 235-283).  `today` stands for
`new Date().toISOString().split("T")[0]`, an external clock reading.
When similar entries exist they are returned and nothing is written;
otherwise the blob is replaced by the old content followed by the new
entry line. -/
def captureReminder (today existingContent reminder : List Char) : CaptureOut :=
  let existingLines := nonBlankLines existingContent
  let similarEntries := findSimilar existingLines reminder
  if similarEntries.isEmpty then
    ⟨.saved, existingContent ++ entryLine today reminder⟩
  else
    ⟨.similarFound similarEntries, existingContent⟩

/-! ### Response orchestrator (`generateSlackResponse`, part_000 lines
162-346) -/

/-- The shape of one element of `result.toolResults`, as inspected by
the fallback chain: an object with possibly-present `value`, `result`
and `output` fields (their stringified contents), a raw string, or any
other shape. -/
inductive ToolResultVal where
  | obj (value result output : Option String)
  | str (s : String)
  | other
deriving DecidableEq

/-- The per-element extraction of the fallback chain: `value` if
defined, else `result`, else `output`, else the value itself when it is
a string, else `null`. -/
def toolResultString : ToolResultVal → Option String
  | .obj (some v) _ _ => some v
  | .obj none (some r) _ => some r
  | .obj none none (some o) => some o
  | .obj none none none => none
  | .str s => some s
  | .other => none

/-- The fields of the completion-engine result that the fallback chain
reads: the direct text (absent when `undefined`), the number of tool
calls (absent when `toolCalls` is `undefined`), and the tool-result
array (absent when `toolResults` is not a present array). -/
structure GenerateTextResult where
  text : Option String
  toolCalls : Option Nat
  toolResults : Option (List ToolResultVal)
deriving DecidableEq

/-- Stringify, filter out nulls and blank values, and join the
tool-result values with newlines. -/
def toolResultValues (trs : List ToolResultVal) : String :=
  String.intercalate "\n"
    ((trs.filterMap toolResultString).filter (fun v => jsTrimS v != ""))

/-- How one `generateText` invocation ends: a result object, or a
thrown error with the given message. -/
inductive EngineOutcome where
  | ok (r : GenerateTextResult)
  | threw (msg : String)
deriving DecidableEq

/-- What a `generateSlackResponse` call produces: the reply string and
whether the completion engine was invoked at all. -/
structure RespondOut where
  reply : String
  engineInvoked : Bool
deriving DecidableEq

/-- The fixed missing-credential message. -/
def notConfiguredMsg : String :=
  "Sorry, the AI service is not configured. Please check server settings."

/-- The fixed no-text-no-tool-results fallback message. -/
def fallbackMsg : String :=
  "I processed your request but have no text response. Please try rephrasing your request."

/-- The part of the fallback chain that runs when the direct text is
not usable: if tools were called and tool results are present and
non-empty, join their extracted values (unless the join is empty);
otherwise the fixed fallback message. -/
def afterTextFallback (r : GenerateTextResult) : String :=
  if (match r.toolCalls with | some n => decide (0 < n) | none => false) then
    match r.toolResults with
    | some trs =>
      if trs.isEmpty then fallbackMsg
      else if toolResultValues trs != "" then toolResultValues trs
      else fallbackMsg
    | none => fallbackMsg
  else fallbackMsg

/-- The deterministic fallback chain applied to a successful engine
result: prefer the trimmed direct text when truthy; otherwise the
tool-result fallback. -/
def normalizeResult (r : GenerateTextResult) : String :=
  match r.text with
  | some t => if t != "" && jsTrimS t != "" then jsTrimS t else afterTextFallback r
  | none => afterTextFallback r

/-- `generateSlackResponse` (part_000 lines 162-346), abstracted over
the engine outcome.  An empty `apiKey` models the absent
`GOOGLE_GENERATIVE_AI_API_KEY`; in that case the fixed
not-configured message is returned and the engine is never invoked.
A thrown engine error is caught and converted into the apology
string. -/
def generateSlackResponse (apiKey : String) (engine : EngineOutcome) : RespondOut :=
  if apiKey == "" then ⟨notConfiguredMsg, false⟩
  else
    match engine with
    | .ok r => ⟨normalizeResult r, true⟩
    | .threw msg => ⟨"Sorry, I encountered an error: " ++ msg, true⟩

/-! ### Event dispatcher (`handleSlackEvent`, part_000 lines 352-490) -/

/-- The fields of an inbound Slack event that the dispatcher reads. -/
structure SlackEvent where
  type : String
  text : Option String := none
  user : Option String := none
  channel : Option String := none
  channel_type : Option String := none
  thread_ts : Option String := none
  ts : Option String := none
  bot_id : Option String := none
deriving DecidableEq

/-- The parsed webhook payload. -/
structure SlackEventPayload where
  type : String
  challenge : Option String := none
  event : Option SlackEvent := none
deriving DecidableEq

/-- The idempotency key-value store, newest binding first. -/
abbrev Kv := List (String × String)

/-- Point lookup in the key-value store. -/
def kvGet (kv : Kv) (k : String) : Option String :=
  ((kv : List (String × String)).find? (fun p => p.1 == k)).map (fun p => p.2)

/-- Write a binding; a later lookup sees the newest value. -/
def kvPut (kv : Kv) (k v : String) : Kv :=
  ((k, v) :: (kv : List (String × String)) : List (String × String))

/-- JavaScript truthiness of a possibly-absent string: present and
non-empty. -/
def isTruthyS : Option String → Bool
  | some s => s != ""
  | none => false

/-- A character matched by the mention-id class `[A-Z0-9]` under the
`i` flag: an ASCII letter of either case or a digit. -/
def isMentionChar (c : Char) : Bool := c.isAlphanum

/-- The scanner behind `text.replace(/<@[A-Z0-9]+>/gi, "")`, with a
structural fuel argument (one unit per character of the original text,
which bounds the number of scanner steps).  At each position: when a
complete mention token starts here — `<`, `@`, a non-empty alphanumeric
run, `>` — drop it and continue after the `>` (the maximal run followed
by `>` is exactly what the greedy character class matches); otherwise
copy one character and advance. -/
def stripMentionsGo : Nat → List Char → List Char
  | 0, l => l
  | _ + 1, [] => []
  | fuel + 1, c :: cs =>
    if c = '<' ∧ cs.head? = some '@' ∧
        (cs.tail.takeWhile isMentionChar) ≠ [] ∧
        (cs.tail.dropWhile isMentionChar).head? = some '>' then
      stripMentionsGo fuel (cs.tail.dropWhile isMentionChar).tail
    else
      c :: stripMentionsGo fuel cs

/-- `text.replace(/<@[A-Z0-9]+>/gi, "")`: remove every occurrence of an
at-mention token (a non-empty alphanumeric id of either case wrapped in
`<@`...`>`), scanning left to right. -/
def stripMentions (l : List Char) : List Char := stripMentionsGo l.length l

/-- The per-event-subtype extraction of `(userText, channelId,
threadTs)` (part_000 lines 433-451): a direct message passes its text
and thread through unchanged; an app mention strips every mention token
from the text, trims it, and threads the reply under the triggering
message's own `ts`; other subtypes yield nothing. -/
def extractMessage (event : SlackEvent) : Option String × Option String × Option String :=
  if event.type == "message" && event.channel_type == some ("im") then
    (event.text, event.channel, event.thread_ts)
  else if event.type == "app_mention" then
    (event.text.map (fun t => (⟨trimL (stripMentions t.data)⟩ : String)),
     event.channel, event.ts)
  else
    (none, none, none)

/-- The synthesized idempotency id used when the event carries no
truthy provider timestamp. -/
def synthEventId (event : SlackEvent) (receiptMs : Nat) : String :=
  event.type ++ "-" ++ (match event.user with
    | some u => u
    | none => "undefined") ++ "-" ++ toString receiptMs

/-- `event.ts || synthesized`: the idempotency id of an event. -/
def eventIdOf (event : SlackEvent) (receiptMs : Nat) : String :=
  match event.ts with
  | some ts => if ts != "" then ts else synthEventId event receiptMs
  | none => synthEventId event receiptMs

/-- The idempotency key written to the store. -/
def eventKeyOf (event : SlackEvent) (receiptMs : Nat) : String :=
  "slack-event:" ++ eventIdOf event receiptMs

/-- What one dispatcher run yields: the HTTP status and body of the
acknowledgment, the key-value store afterwards, and how many detached
background orchestration/delivery tasks were started (0 or 1). -/
structure DispatchOut where
  status : Nat
  body : String
  kv : Kv
  backgroundTasks : Nat
deriving DecidableEq

/-- The `event_callback` branch of `handleSlackEvent` (part_000 lines
408-486): skip bot events, perform the idempotency lookup, mark the
event processed before extraction, extract the message, and start one
background task exactly when text, channel and user are all truthy. -/
def handleEventCallback (event : SlackEvent) (kv : Kv) (receiptMs : Nat) : DispatchOut :=
  if isTruthyS event.bot_id then ⟨200, "OK", kv, 0⟩
  else
    let eventKey := eventKeyOf event receiptMs
    if isTruthyS (kvGet kv eventKey) then ⟨200, "OK", kv, 0⟩
    else
      let kv2 := kvPut kv eventKey "processed"
      let ext := extractMessage event
      if isTruthyS ext.1 && isTruthyS ext.2.1 && isTruthyS event.user then
        ⟨200, "OK", kv2, 1⟩
      else
        ⟨200, "OK", kv2, 0⟩

/-- The post-parse dispatch (part_000 lines 400-490): answer the URL
verification challenge, handle event callbacks, and acknowledge
everything else. -/
def handleParsed (payload : SlackEventPayload) (kv : Kv) (receiptMs : Nat) : DispatchOut :=
  if payload.type == "url_verification" then
    ⟨200, payload.challenge.getD "", kv, 0⟩
  else
    match payload.event with
    | some event =>
      if payload.type == "event_callback" then handleEventCallback event kv receiptMs
      else ⟨200, "OK", kv, 0⟩
    | none => ⟨200, "OK", kv, 0⟩

/-- An inbound HTTP request as the dispatcher sees it. -/
structure HttpRequest where
  method : String
  timestampHeader : Option String
  signatureHeader : Option String
  body : String

/-- `handleSlackEvent` (part_000 lines 352-490): method check,
configuration check, header check, signature verification, JSON parse
(abstracted as `parseJson`), then the parsed dispatch. -/
def handleSlackEvent (hmacHex : String → String → String) (now : Int) (receiptMs : Nat)
    (parseJson : String → Option SlackEventPayload)
    (signingSecret botToken : String) (req : HttpRequest) (kv : Kv) : DispatchOut :=
  if req.method != "POST" then ⟨405, "Method not allowed", kv, 0⟩
  else if signingSecret == "" || botToken == "" then
    ⟨500, "Server configuration error", kv, 0⟩
  else
    match req.timestampHeader, req.signatureHeader with
    | some tsH, some sigH =>
      if !isTruthyS (some tsH) || !isTruthyS (some sigH) then
        ⟨400, "Missing Slack headers", kv, 0⟩
      else if !verifySlackRequest hmacHex now signingSecret tsH req.body sigH then
        ⟨401, "Invalid signature", kv, 0⟩
      else
        match parseJson req.body with
        | none => ⟨400, "Invalid JSON", kv, 0⟩
        | some payload => handleParsed payload kv receiptMs
    | _, _ => ⟨400, "Missing Slack headers", kv, 0⟩

/-- Modelled from the claim of C8: strip only a leading mention token —
an all-caps alphanumeric id wrapped in the at-mention marker at the
very start of the text — and trim the result.  Used solely to compare
the claim's wording against the code's global, case-insensitive
replacement. -/
def stripLeadingMentionOnly (l : List Char) : List Char :=
  match l with
  | '<' :: '@' :: rest =>
    (match rest.dropWhile (fun c => c.isUpper || c.isDigit) with
     | '>' :: after =>
       if (rest.takeWhile (fun c => c.isUpper || c.isDigit)).isEmpty then l
       else after
     | _ => l)
  | _ => l

/-! ### Helper lemmas -/

theorem nat_lor_eq_zero_iff (x y : Nat) : x ||| y = 0 ↔ x = 0 ∧ y = 0 := by
  constructor
  · intro h
    constructor
    · by_contra hx
      obtain ⟨i, hi⟩ := Nat.exists_most_significant_bit hx
      have h1 : (x ||| y).testBit i = true := by
        rw [Nat.testBit_lor, hi.1]; simp
      rw [h] at h1; simp [Nat.zero_testBit] at h1
    · by_contra hy
      obtain ⟨i, hi⟩ := Nat.exists_most_significant_bit hy
      have h1 : (x ||| y).testBit i = true := by
        rw [Nat.testBit_lor, hi.1]; simp
      rw [h] at h1; simp [Nat.zero_testBit] at h1
  · rintro ⟨rfl, rfl⟩; rfl

theorem xorAccum_foldl_eq_zero (l : List (Nat × Nat)) :
    ∀ acc : Nat, l.foldl (fun acc p => acc ||| (p.1 ^^^ p.2)) acc = 0 ↔
      acc = 0 ∧ ∀ p ∈ l, p.1 = p.2 := by
  induction l with
  | nil => simp
  | cons x xs ih =>
    intro acc
    simp only [List.foldl_cons, ih, List.mem_cons, nat_lor_eq_zero_iff, Nat.xor_eq_zero]
    constructor
    · rintro ⟨⟨h1, h2⟩, h3⟩
      exact ⟨h1, fun p hp => by rcases hp with rfl | hp; exact h2; exact h3 p hp⟩
    · rintro ⟨h1, h2⟩
      exact ⟨⟨h1, h2 x (Or.inl rfl)⟩, fun p hp => h2 p (Or.inr hp)⟩

theorem eq_of_zip_eq : ∀ (a b : List Nat), a.length = b.length →
    (∀ p ∈ a.zip b, p.1 = p.2) → a = b := by
  intro a
  induction a with
  | nil =>
    intro b hb _
    cases b with
    | nil => rfl
    | cons y ys => simp at hb
  | cons x xs ih =>
    intro b hb hall
    cases b with
    | nil => simp at hb
    | cons y ys =>
      have hx : x = y := hall (x, y) (by simp)
      have : xs = ys := ih ys (by simpa using hb) (fun p hp => hall p (by simp [hp]))
      rw [hx, this]

theorem mem_zip_self (l : List Nat) : ∀ p ∈ l.zip l, p.1 = p.2 := by
  induction l with
  | nil => simp
  | cons x xs ih =>
    intro p hp
    rw [List.zip_cons_cons, List.mem_cons] at hp
    rcases hp with rfl | hp
    · rfl
    · exact ih p hp

theorem charToNat_injective : Function.Injective Char.toNat := by
  intro a b h
  rw [Char.ext_iff, UInt32.ext_iff]
  exact h

theorem charCodes_inj {a b : String} (h : charCodes a = charCodes b) : a = b := by
  rw [String.ext_iff]
  exact List.map_injective_iff.mpr charToNat_injective h

theorem constantTimeEq_eq_true_iff (a b : String) :
    constantTimeEq a b = true ↔ a = b := by
  unfold constantTimeEq
  by_cases hlen : (charCodes a).length = (charCodes b).length
  · rw [hlen]
    simp only [bne_self_eq_false, Bool.false_eq_true, if_false, beq_iff_eq]
    unfold xorAccum
    rw [xorAccum_foldl_eq_zero]
    constructor
    · rintro ⟨_, hall⟩
      exact charCodes_inj (eq_of_zip_eq _ _ hlen hall)
    · rintro rfl
      exact ⟨rfl, mem_zip_self _⟩
  · simp only [bne_iff_ne, ne_eq, hlen, not_false_eq_true, if_true,
      Bool.false_eq_true, false_iff]
    intro hab
    exact hlen (by rw [hab])

/-! ### Claim theorems -/

/-- C1: for a signing secret, raw body, provided signature and a
timestamp header that parses as a number, `verifySlackRequest` returns
true iff the timestamp is within 300 seconds of now and the provided
signature equals `"v0=" + hex(HMAC-SHA256(secret, "v0:" + ts + ":" +
body))`; the length-check-then-XOR-accumulate comparison declares
equality exactly when the two strings are equal; and timestamps more
than 300 seconds from now always yield false. -/
theorem claim_C1_verify (hmacHex : String → String → String) (now : Int)
    (secret ts body sig : String) (n : Int) (h : jsParseInt ts = some n) :
    (verifySlackRequest hmacHex now secret ts body sig = true ↔
      ((now - n).natAbs ≤ 300 ∧
        sig = "v0=" ++ hmacHex secret ("v0:" ++ ts ++ ":" ++ body))) ∧
    (∀ a b : String, constantTimeEq a b = true ↔ a = b) ∧
    (300 < (now - n).natAbs →
      verifySlackRequest hmacHex now secret ts body sig = false) := by
  have hmain : verifySlackRequest hmacHex now secret ts body sig =
      if 300 < (now - n).natAbs then false
      else constantTimeEq ("v0=" ++ hmacHex secret ("v0:" ++ ts ++ ":" ++ body)) sig := by
    unfold verifySlackRequest
    rw [h]
    by_cases hlt : 300 < (now - n).natAbs
    · simp [hlt]
    · simp [hlt]
  refine ⟨?_, fun a b => constantTimeEq_eq_true_iff a b, ?_⟩
  · rw [hmain]
    by_cases hlt : 300 < (now - n).natAbs
    · simp only [hlt, if_true, Bool.false_eq_true, false_iff]
      rintro ⟨hle, _⟩
      omega
    · simp only [hlt, if_false, constantTimeEq_eq_true_iff]
      constructor
      · intro heq
        exact ⟨by omega, heq.symm⟩
      · rintro ⟨_, rfl⟩
        rfl
  · intro hlt
    rw [hmain]
    simp [hlt]

/-- C1 witness: a concrete in-window request with the correct
signature is accepted. -/
theorem claim_C1_verify_witness :
    verifySlackRequest (fun _ _ => "aa") 100 ("s") ("100") ("b") ("v0=aa") = true :=
  (claim_C1_verify (fun _ _ => "aa") 100 ("s") ("100") ("b") ("v0=aa") 100
    (by decide)).1.mpr ⟨by decide, rfl⟩

theorem sendLoop_exhaust (provider : Nat → AttemptResult) (m : Nat)
    (hnok : ∀ i, i < m → provider i ≠ AttemptResult.ok) :
    ∀ k a le ws, m ≤ a + k → a ≤ m → le = lastErrBelow provider a →
      (sendLoop provider m a le ws).attempts = m ∧
      (sendLoop provider m a le ws).outcome =
        DeliveryResult.error
          ((lastErrBelow provider m).getD ("Failed to send Slack message")) := by
  intro k
  induction k with
  | zero =>
    intro a le ws hk ham hle
    have ha : a = m := by omega
    subst ha
    rw [sendLoop, dif_neg (by omega)]
    exact ⟨rfl, by rw [hle]⟩
  | succ k ih =>
    intro a le ws hk ham hle
    by_cases h : a < m
    · rw [sendLoop, dif_pos h]
      cases hpa : provider a with
      | ok => exact absurd hpa (hnok a h)
      | rateLimited ra =>
        have hle2 : le = lastErrBelow provider (a + 1) := by
          rw [hle]; simp [lastErrBelow, hpa]
        exact ih (a + 1) le _ (by omega) (by omega) hle2
      | apiError e =>
        have hle2 : some (apiErrMsg e) = lastErrBelow provider (a + 1) := by
          simp [lastErrBelow, hpa]
        by_cases h2 : a < m - 1
        · have hih := ih (a + 1) (some (apiErrMsg e)) (ws ++ [2 ^ a * 1000])
            (by omega) (by omega) hle2
          simpa [h2] using hih
        · have hih := ih (a + 1) (some (apiErrMsg e)) ws (by omega) (by omega) hle2
          simpa [h2] using hih
      | networkError msg =>
        have hle2 : some msg = lastErrBelow provider (a + 1) := by
          simp [lastErrBelow, hpa]
        by_cases h2 : a < m - 1
        · have hih := ih (a + 1) (some msg) (ws ++ [2 ^ a * 1000])
            (by omega) (by omega) hle2
          simpa [h2] using hih
        · have hih := ih (a + 1) (some msg) ws (by omega) (by omega) hle2
          simpa [h2] using hih
    · have ha : a = m := by omega
      subst ha
      rw [sendLoop, dif_neg (by omega)]
      exact ⟨rfl, by rw [hle]⟩

/-- C2: against a provider that never reports success, `send` with
`maxAttempts = 3` issues exactly 3 attempts and then fails with a
delivery error carrying the last observed error (or the generic message
when no error object was recorded); a provider that always reports a
generic or network error produces the exponential-backoff waits 1000 ms
and 2000 ms before the two retries; a rate-limited first attempt waits
`retryAfterSeconds * 1000` ms when the header is present and
`2 ^ attempt * 1000` ms otherwise, still counts toward `maxAttempts`,
and a subsequent success ends the call successfully. -/
theorem claim_C2_delivery_retry :
    (∀ provider : Nat → AttemptResult, (∀ i, i < 3 → provider i ≠ .ok) →
      (sendSlackMessage provider 3).attempts = 3 ∧
      (sendSlackMessage provider 3).outcome =
        .error ((lastErrBelow provider 3).getD ("Failed to send Slack message"))) ∧
    (∀ e : String, e ≠ "" →
      sendSlackMessage (fun _ => .apiError (some e)) 3 =
        ⟨3, [1000, 2000], .error e⟩) ∧
    (∀ m : String,
      sendSlackMessage (fun _ => .networkError m) 3 =
        ⟨3, [1000, 2000], .error m⟩) ∧
    (∀ ra : Nat,
      sendSlackMessage (fun i => if i == 0 then .rateLimited (some ra) else .ok) 3 =
        ⟨2, [ra * 1000], .ok⟩) ∧
    (sendSlackMessage (fun i => if i == 0 then .rateLimited none else .ok) 3 =
      ⟨2, [1000], .ok⟩) := by
  refine ⟨?_, ?_, ?_, ?_, ?_⟩
  · intro provider hnok
    exact sendLoop_exhaust provider 3 hnok 3 0 none [] (by omega) (by omega) rfl
  · intro e he
    have hmsg : apiErrMsg (some e) = e := by
      simp [apiErrMsg, he]
    simp [sendSlackMessage, sendLoop, hmsg]
  · intro m
    simp [sendSlackMessage, sendLoop]
  · intro ra
    simp [sendSlackMessage, sendLoop]
  · simp [sendSlackMessage, sendLoop]

/-- C2 witness: a provider that always fails with error "boom" makes
`send` issue exactly 3 attempts, wait 1 s and 2 s between them, and
fail carrying "boom". -/
theorem claim_C2_delivery_retry_witness :
    sendSlackMessage (fun _ => .apiError (some ("boom"))) 3 =
      ⟨3, [1000, 2000], .error ("boom")⟩ :=
  claim_C2_delivery_retry.2.1 ("boom") (by decide)

/-- C10: when the timestamp header does not parse as a number, the
replay-window comparison against NaN is false and does not reject, so
the verdict is the signature comparison alone: a request of arbitrary
age with a correct signature over the literal timestamp string is
accepted. -/
theorem claim_C10_nonnumeric_timestamp (hmacHex : String → String → String)
    (now : Int) (secret ts body sig : String) (h : jsParseInt ts = none) :
    verifySlackRequest hmacHex now secret ts body sig = true ↔
      sig = "v0=" ++ hmacHex secret ("v0:" ++ ts ++ ":" ++ body) := by
  unfold verifySlackRequest
  rw [h]
  simp only [Bool.false_eq_true, if_false, constantTimeEq_eq_true_iff]
  exact eq_comm

/-- C10 witness: a request 10⁹ seconds old whose timestamp header is
the non-numeric string "abc" is accepted when the signature matches. -/
theorem claim_C10_nonnumeric_timestamp_witness :
    verifySlackRequest (fun _ _ => "aa") 999999999 ("s") ("abc") ("b") ("v0=aa") = true :=
  (claim_C10_nonnumeric_timestamp (fun _ _ => "aa") 999999999 ("s") ("abc") ("b")
    ("v0=aa") (by decide)).mpr rfl

theorem splitAux_append_sep (p : Char → Bool) (sep : Char) (hp : p sep = true)
    (ys : List Char) :
    ∀ (xs acc : List Char),
      splitAux p (xs ++ sep :: ys) acc = splitAux p xs acc ++ splitAux p ys [] := by
  intro xs
  induction xs with
  | nil => intro acc; simp [splitAux, hp]
  | cons x xs ih =>
    intro acc
    simp only [List.cons_append, splitAux]
    by_cases hx : p x = true
    · simp [hx, ih]
    · simp [hx, ih]

theorem splitAux_no_sep (p : Char → Bool) :
    ∀ (l : List Char), (∀ c ∈ l, p c = false) →
      ∀ acc, splitAux p l acc = [acc.reverse ++ l] := by
  intro l
  induction l with
  | nil => intro _ acc; simp [splitAux]
  | cons c cs ih =>
    intro h acc
    have hc : p c = false := h c (by simp)
    simp only [splitAux, hc, Bool.false_eq_true, if_false]
    rw [ih (fun d hd => h d (by simp [hd])) (c :: acc)]
    simp

theorem mem_splitAux_infix (p : Char → Bool) :
    ∀ (xs acc piece : List Char), piece ∈ splitAux p xs acc →
      piece <:+: acc.reverse ++ xs := by
  intro xs
  induction xs with
  | nil =>
    intro acc piece hm
    simp [splitAux] at hm
    subst hm
    exact (List.prefix_append _ _).isInfix
  | cons x xs ih =>
    intro acc piece hm
    simp only [splitAux] at hm
    by_cases hx : p x = true
    · rw [if_pos hx, List.mem_cons] at hm
      rcases hm with rfl | hm
      · exact (List.prefix_append _ _).isInfix
      · have h1 := ih [] piece hm
        simp at h1
        have h2 : xs <:+: acc.reverse ++ x :: xs := by
          refine List.IsSuffix.isInfix ?_
          refine (List.suffix_cons x xs).trans (List.suffix_append _ _)
        exact h1.trans h2
    · rw [if_neg hx] at hm
      have h1 := ih (x :: acc) piece hm
      simpa using h1
  -- intentionally left at this granularity

theorem mem_splitOnPred_infix (p : Char → Bool) (l piece : List Char)
    (h : piece ∈ splitOnPred p l) : piece <:+: l := by
  have h1 := mem_splitAux_infix p l [] piece h
  simpa using h1

theorem includesL_iff (hay needle : List Char) :
    includesL hay needle = true ↔ needle <:+: hay := by
  unfold includesL
  rw [List.any_eq_true]
  constructor
  · rintro ⟨t, ht, hpre⟩
    rw [List.mem_tails] at ht
    rw [List.isPrefixOf_iff_prefix] at hpre
    exact List.infix_iff_prefix_suffix.mpr ⟨t, hpre, ht⟩
  · intro h
    obtain ⟨t, hpre, hsuf⟩ := List.infix_iff_prefix_suffix.mp h
    exact ⟨t, (List.mem_tails _ _).mpr hsuf, List.isPrefixOf_iff_prefix.mpr hpre⟩

theorem nonBlankLines_append_line (blob line : List Char)
    (hb : blob = [] ∨ ∃ pre, blob = pre ++ ['\n'])
    (hnl : ('\n') ∉ line) (hnb : line.any (fun c => !c.isWhitespace) = true) :
    nonBlankLines (blob ++ (line ++ ['\n'])) = nonBlankLines blob ++ [line] := by
  have hline : ∀ c ∈ line, (c == '\n') = false := by
    intro c hc
    rcases eq_or_ne c '\n' with rfl | hne
    · exact absurd hc hnl
    · simp [hne]
  have hsplit : splitOnPred (fun c => c == '\n') (line ++ ['\n']) = [line, []] := by
    have h1 : line ++ ['\n'] = line ++ ('\n') :: [] := rfl
    rw [h1]
    unfold splitOnPred
    rw [splitAux_append_sep (fun c => c == '\n') ('\n') (by simp) [] line []]
    rw [splitAux_no_sep (fun c => c == '\n') line hline []]
    simp [splitAux]
  have hkeep : (List.filter (fun l => l.any (fun c => !c.isWhitespace)) [line, []]) =
      [line] := by
    simp [List.filter, hnb]
  have hempty : nonBlankLines [] = [] := by
    simp [nonBlankLines, splitOnPred, splitAux, List.filter]
  rcases hb with rfl | ⟨pre, rfl⟩
  · unfold nonBlankLines
    rw [List.nil_append, hsplit, hkeep]
    rw [show List.filter (fun l => l.any (fun c => !c.isWhitespace))
      (splitOnPred (fun c => c == '\n') []) = nonBlankLines [] from rfl, hempty]
    simp
  · have hassoc : (pre ++ ['\n']) ++ (line ++ ['\n']) = pre ++ ('\n') :: (line ++ ['\n']) := by
      simp
    unfold nonBlankLines
    rw [hassoc]
    unfold splitOnPred
    rw [splitAux_append_sep (fun c => c == '\n') ('\n') (by simp) (line ++ ['\n']) pre []]
    have hpre : splitAux (fun c => c == '\n') (pre ++ ['\n']) [] =
        splitAux (fun c => c == '\n') pre [] ++ [[]] := by
      have h2 : pre ++ ['\n'] = pre ++ ('\n') :: [] := rfl
      rw [h2, splitAux_append_sep (fun c => c == '\n') ('\n') (by simp) [] pre []]
      simp [splitAux]
    rw [hpre]
    rw [show splitAux (fun c => c == '\n') (line ++ ['\n']) [] =
        splitOnPred (fun c => c == '\n') (line ++ ['\n']) from rfl, hsplit]
    simp only [List.filter_append, hkeep]
    simp [List.filter]

theorem token_infix_of_mem (reminder w : List Char)
    (hw : w ∈ significantTokens reminder) : w <:+: jsToLower reminder := by
  unfold significantTokens at hw
  have hw2 := List.mem_of_mem_filter hw
  exact mem_splitOnPred_infix _ _ _ hw2

theorem entryBody_similar (today reminder line : List Char)
    (htoks : 2 ≤ (significantTokens reminder).length)
    (hsuf : jsToLower reminder <:+ jsToLower line) :
    ((significantTokens reminder).filter
      (fun w => includesL (jsToLower line) w)).length =
        (significantTokens reminder).length := by
  rw [List.filter_eq_self.mpr]
  intro w hw
  rw [includesL_iff]
  exact (token_infix_of_mem reminder w hw).trans hsuf.isInfix

/-- C3 counterexample: the claim fails as stated.  With the text
"hi" (which has no significant token, so the similarity guard cannot
fire) the first append saves, and the second append of the identical
text saves again instead of returning `SimilarFound`. -/
theorem claim_C3_counterexample :
    (captureReminder ("2025-10-11").data [] ("hi").data).outcome =
      CaptureOutcome.saved ∧
    (captureReminder ("2025-10-11").data
        ((captureReminder ("2025-10-11").data [] ("hi").data).blob)
        ("hi").data).outcome = CaptureOutcome.saved := by
  decide

/-- C3 (amended): provided the text has at least two significant
tokens and neither the text nor the date stamp contains a newline, and
the prior blob is empty or newline-terminated, a first append that
returns `Saved` makes the second append of the identical text return
`SimilarFound` with the line written by the first append in the list,
writing nothing. -/
theorem claim_C3_amended (today blob reminder : List Char)
    (htoks : 2 ≤ (significantTokens reminder).length)
    (hr : ('\n') ∉ reminder) (ht : ('\n') ∉ today)
    (hb : blob = [] ∨ ∃ pre, blob = pre ++ ['\n'])
    (hsaved : (captureReminder today blob reminder).outcome = CaptureOutcome.saved) :
    ∃ ls,
      (captureReminder today ((captureReminder today blob reminder).blob)
        reminder).outcome = CaptureOutcome.similarFound ls ∧
      entryBody today reminder ∈ ls ∧
      (captureReminder today ((captureReminder today blob reminder).blob)
        reminder).blob = (captureReminder today blob reminder).blob := by
  by_cases h1 : (findSimilar (nonBlankLines blob) reminder).isEmpty
  case neg =>
    unfold captureReminder at hsaved
    simp only [h1, Bool.false_eq_true, if_false] at hsaved
    simp [h1] at hsaved
  have hblob1 : (captureReminder today blob reminder).blob =
      blob ++ entryLine today reminder := by
    simp [captureReminder, h1]
  have hnl_body : ('\n') ∉ entryBody today reminder := by
    intro hmem
    simp only [entryBody, List.mem_append, List.mem_cons] at hmem
    rcases hmem with (h | h) | (h | (h | h))
    · exact absurd h (by decide)
    · exact ht h
    · exact absurd h (by decide)
    · exact absurd h (by decide)
    · exact hr h
  have hnb_body : (entryBody today reminder).any (fun c => !c.isWhitespace) = true := by
    rw [List.any_eq_true]
    refine ⟨'[', ?_, by decide⟩
    simp [entryBody]
  have hlines : nonBlankLines (blob ++ entryLine today reminder) =
      nonBlankLines blob ++ [entryBody today reminder] := by
    have h2 := nonBlankLines_append_line blob (entryBody today reminder) hb
      hnl_body hnb_body
    simpa [entryLine] using h2
  have hsuf : jsToLower reminder <:+ jsToLower (entryBody today reminder) := by
    refine ⟨jsToLower ('[' :: today) ++ [Char.toLower (']'), Char.toLower (' ')], ?_⟩
    simp [entryBody, jsToLower]
  have hcount := entryBody_similar today reminder (entryBody today reminder) htoks hsuf
  have hmem : entryBody today reminder ∈
      findSimilar (nonBlankLines (blob ++ entryLine today reminder)) reminder := by
    unfold findSimilar
    rw [List.mem_filter]
    constructor
    · rw [hlines]; simp
    · rw [hcount]
      exact decide_eq_true htoks
  cases hni : (findSimilar (nonBlankLines (blob ++ entryLine today reminder))
      reminder).isEmpty with
  | true =>
    rw [List.isEmpty_iff] at hni
    rw [hni] at hmem
    exact absurd hmem (List.not_mem_nil _)
  | false =>
    refine ⟨findSimilar (nonBlankLines (blob ++ entryLine today reminder)) reminder,
      ?_, hmem, ?_⟩
    · rw [hblob1]
      simp [captureReminder, hni]
    · rw [hblob1]
      simp [captureReminder, hni]

/-- C3 witness: with the two-significant-token text "call bob
tomorrow" on an empty ledger, the first append saves and the second
returns `SimilarFound` carrying the line the first one wrote. -/
theorem claim_C3_amended_witness :
    ∃ ls,
      (captureReminder ("2025-10-11").data
        ((captureReminder ("2025-10-11").data [] ("call bob tomorrow").data).blob)
        ("call bob tomorrow").data).outcome = CaptureOutcome.similarFound ls ∧
      entryBody ("2025-10-11").data ("call bob tomorrow").data ∈ ls ∧
      (captureReminder ("2025-10-11").data
        ((captureReminder ("2025-10-11").data [] ("call bob tomorrow").data).blob)
        ("call bob tomorrow").data).blob =
        (captureReminder ("2025-10-11").data [] ("call bob tomorrow").data).blob :=
  claim_C3_amended ("2025-10-11").data [] ("call bob tomorrow").data
    (by decide) (by decide) (by decide) (Or.inl rfl) (by decide)

/-- C4: for a single-line ledger, a candidate whose significant tokens
(counted as the code counts them, with multiplicity over the token
list) match the line exactly once is not flagged similar — the append
saves; a candidate with two or more matches is flagged and the line is
returned in the `SimilarFound` list. -/
theorem claim_C4_similarity_boundary (today line reminder : List Char)
    (hnl : ('\n') ∉ line) (hnb : line.any (fun c => !c.isWhitespace) = true) :
    (((significantTokens reminder).filter
        (fun w => includesL (jsToLower line) w)).length = 1 →
      (captureReminder today (line ++ ['\n']) reminder).outcome =
        CaptureOutcome.saved) ∧
    (2 ≤ ((significantTokens reminder).filter
        (fun w => includesL (jsToLower line) w)).length →
      (captureReminder today (line ++ ['\n']) reminder).outcome =
        CaptureOutcome.similarFound [line]) := by
  have hlines : nonBlankLines (line ++ ['\n']) = [line] := by
    have h2 := nonBlankLines_append_line [] line (Or.inl rfl) hnl hnb
    simpa [nonBlankLines, splitOnPred, splitAux, List.filter] using h2
  constructor
  · intro hcnt
    have hp : (decide (2 ≤ ((significantTokens reminder).filter
        (fun w => includesL (jsToLower line) w)).length)) = false := by
      rw [decide_eq_false_iff_not]
      omega
    have hsim : findSimilar (nonBlankLines (line ++ ['\n'])) reminder = [] := by
      rw [hlines]
      unfold findSimilar
      simp [List.filter, hp]
    simp [captureReminder, hsim]
  · intro hcnt
    have hp : (decide (2 ≤ ((significantTokens reminder).filter
        (fun w => includesL (jsToLower line) w)).length)) = true :=
      decide_eq_true hcnt
    have hsim : findSimilar (nonBlankLines (line ++ ['\n'])) reminder = [line] := by
      rw [hlines]
      unfold findSimilar
      simp [List.filter, hp]
    simp [captureReminder, hsim]

/-- C4 witness: the candidate "call bob tomorrow" shares the two
significant tokens "call" and "tomorrow" with the existing line
"[2025-01-01] call bob tomorrow", so the line is flagged and returned. -/
theorem claim_C4_similarity_boundary_witness :
    (captureReminder ("2025-10-11").data
        (("[2025-01-01] call bob tomorrow").data ++ ['\n'])
        ("call bob tomorrow").data).outcome =
      CaptureOutcome.similarFound [("[2025-01-01] call bob tomorrow").data] :=
  (claim_C4_similarity_boundary ("2025-10-11").data
    ("[2025-01-01] call bob tomorrow").data ("call bob tomorrow").data
    (by decide) (by decide)).2 (by decide)

/-- C5: every append either leaves the blob unchanged (outcome
`SimilarFound`, no write) or replaces it with exactly the old content
followed by the one new line `"[{today}] {text}\n"` (outcome `Saved`);
in both cases the prior blob is a prefix of the new blob. -/
theorem claim_C5_append_only (today blob reminder : List Char) :
    (((captureReminder today blob reminder).outcome = CaptureOutcome.saved ∧
        (captureReminder today blob reminder).blob =
          blob ++ entryLine today reminder) ∨
      ((∃ ls, (captureReminder today blob reminder).outcome =
          CaptureOutcome.similarFound ls) ∧
        (captureReminder today blob reminder).blob = blob)) ∧
    blob <+: (captureReminder today blob reminder).blob := by
  cases h : (findSimilar (nonBlankLines blob) reminder).isEmpty with
  | true =>
    have h2 : captureReminder today blob reminder =
        ⟨.saved, blob ++ entryLine today reminder⟩ := by
      simp [captureReminder, h]
    rw [h2]
    exact ⟨Or.inl ⟨rfl, rfl⟩, List.prefix_append _ _⟩
  | false =>
    have h2 : captureReminder today blob reminder =
        ⟨.similarFound (findSimilar (nonBlankLines blob) reminder), blob⟩ := by
      simp [captureReminder, h]
    rw [h2]
    exact ⟨Or.inr ⟨⟨_, rfl⟩, rfl⟩, List.prefix_refl _⟩

theorem dropWhile_all_append (p : Char → Bool) :
    ∀ (id : List Char), (∀ c ∈ id, p c = true) → ∀ c0, p c0 = false →
      ∀ rest, (id ++ c0 :: rest).dropWhile p = c0 :: rest ∧
        (id ++ c0 :: rest).takeWhile p = id := by
  intro id
  induction id with
  | nil =>
    intro _ c0 hc0 rest
    simp [List.dropWhile, List.takeWhile, hc0]
  | cons i idt ih =>
    intro h c0 hc0 rest
    have hi : p i = true := h i (by simp)
    have ihh := ih (fun c hc => h c (by simp [hc])) c0 hc0 rest
    simp [List.dropWhile_cons, List.takeWhile_cons, hi, ihh.1, ihh.2]

theorem stripMentionsGo_fuel_eq : ∀ f1 : Nat, ∀ l : List Char, l.length ≤ f1 →
    ∀ f2 : Nat, l.length ≤ f2 → stripMentionsGo f1 l = stripMentionsGo f2 l := by
  intro f1
  induction f1 with
  | zero =>
    intro l hl f2 hl2
    have hnil : l = [] := List.eq_nil_of_length_eq_zero (Nat.le_zero.mp hl)
    subst hnil
    cases f2 with
    | zero => rfl
    | succ g => rfl
  | succ f ih =>
    intro l hl f2 hl2
    cases l with
    | nil =>
      cases f2 with
      | zero => rfl
      | succ g => rfl
    | cons c cs =>
      cases f2 with
      | zero => simp at hl2
      | succ g =>
        simp only [stripMentionsGo]
        by_cases hcond : c = '<' ∧ cs.head? = some '@' ∧
            (cs.tail.takeWhile isMentionChar) ≠ [] ∧
            (cs.tail.dropWhile isMentionChar).head? = some '>'
        · rw [if_pos hcond, if_pos hcond]
          have h1 := (List.dropWhile_suffix (l := cs.tail) isMentionChar).length_le
          have h2 : cs.tail.length ≤ cs.length := by
            cases cs <;> simp
          have h3 : ((cs.tail.dropWhile isMentionChar).tail).length ≤
              (cs.tail.dropWhile isMentionChar).length := by
            cases h4 : cs.tail.dropWhile isMentionChar <;> simp
          simp only [List.length_cons] at hl hl2
          exact ih _ (by omega) g (by omega)
        · rw [if_neg hcond, if_neg hcond]
          simp only [List.length_cons] at hl hl2
          rw [ih cs (by omega) g (by omega)]

theorem stripMentions_drops_mention (id rest : List Char) (hid : id ≠ [])
    (hall : ∀ c ∈ id, isMentionChar c = true) :
    stripMentions ('<' :: '@' :: (id ++ '>' :: rest)) = stripMentions rest := by
  have hgt : isMentionChar ('>') = false := by decide
  have hdrop := dropWhile_all_append isMentionChar id hall ('>') hgt rest
  unfold stripMentions
  simp only [List.length_cons]
  rw [show stripMentionsGo ((id ++ '>' :: rest).length + 1 + 1)
      ('<' :: '@' :: (id ++ '>' :: rest)) =
    stripMentionsGo ((id ++ '>' :: rest).length + 1)
      ((('@' :: (id ++ '>' :: rest)).tail.dropWhile isMentionChar).tail) from ?_]
  · rw [show ('@' :: (id ++ '>' :: rest)).tail = id ++ '>' :: rest from rfl, hdrop.1]
    rw [show ('>' :: rest).tail = rest from rfl]
    apply stripMentionsGo_fuel_eq
    · simp [List.length_append]
      omega
    · exact Nat.le_refl _
  · rw [stripMentionsGo, if_pos]
    refine ⟨rfl, rfl, ?_, ?_⟩
    · rw [show ('@' :: (id ++ '>' :: rest)).tail = id ++ '>' :: rest from rfl, hdrop.2]
      exact hid
    · rw [show ('@' :: (id ++ '>' :: rest)).tail = id ++ '>' :: rest from rfl, hdrop.1]
      rfl

/-- C8 counterexample: the claim fails as stated.  The code replaces
every at-mention token, case-insensitively, not only the leading
all-caps one: for the mention text `"<@BOT123> tell <@u456> hi"` the
extracted text is `"tell  hi"`, whereas stripping only the leading
mention token and trimming (the claim's reading) gives
`"tell <@u456> hi"`. -/
theorem claim_C8_counterexample :
    (extractMessage ⟨"app_mention", some ("<@BOT123> tell <@u456> hi"),
        some ("U1"), some ("C1"), none, none, some ("123.45"), none⟩).1 =
      some ("tell  hi") ∧
    (⟨trimL (stripLeadingMentionOnly ("<@BOT123> tell <@u456> hi").data)⟩ : String) =
      "tell <@u456> hi" ∧
    ("tell  hi" : String) ≠ "tell <@u456> hi" := by
  decide

/-- C8 (amended): for every app_mention event, the extracted user text
is the original event text with every at-mention token — a non-empty
alphanumeric id of either case wrapped in the at-mention marker —
removed and the result trimmed, and the reply thread defaults to the
triggering message's own `ts`: the scanner drops each complete mention
token wherever it occurs, `extractMessage` applies it followed by
trimming and threads the reply under `event.ts`, and on the spec's own
scenario `"<@BOT123> what time is it in Tokyo"` the extracted text is
`"what time is it in Tokyo"`. -/
theorem claim_C8_amended :
    (∀ id rest : List Char, id ≠ [] → (∀ c ∈ id, isMentionChar c = true) →
      stripMentions ('<' :: '@' :: (id ++ '>' :: rest)) = stripMentions rest) ∧
    (∀ e : SlackEvent, e.type = "app_mention" →
      extractMessage e =
        (e.text.map (fun t => (⟨trimL (stripMentions t.data)⟩ : String)),
          e.channel, e.ts)) ∧
    ((extractMessage ⟨"app_mention", some ("<@BOT123> what time is it in Tokyo"),
        some ("U1"), some ("C1"), none, none, some ("123.45"), none⟩) =
      (some ("what time is it in Tokyo"), some ("C1"), some ("123.45"))) := by
  refine ⟨stripMentions_drops_mention, ?_, by decide⟩
  intro e htype
  unfold extractMessage
  rw [htype]
  simp

/-- C8 witness: the scanner removes a concrete mention token wherever
it stands. -/
theorem claim_C8_amended_witness :
    stripMentions ('<' :: '@' :: (("BOT7").data ++ '>' :: (" hi").data)) =
      stripMentions (" hi").data :=
  claim_C8_amended.1 ("BOT7").data (" hi").data (by decide) (by decide)

/-- C6: two sequential dispatcher calls on the same verified, non-bot
event callback whose event carries a truthy provider timestamp start
exactly one background orchestration/delivery invocation: the first
call (on a store without the key) starts one, and the second finds the
idempotency key present, returns the OK acknowledgment, starts no
background task and leaves the store as the first call left it. -/
theorem claim_C6_dispatcher_idempotent (e : SlackEvent) (kv : Kv) (ms1 ms2 : Nat)
    (tsv : String) (hts : e.ts = some tsv) (htsne : tsv ≠ "")
    (hbot : isTruthyS e.bot_id = false)
    (hfresh : isTruthyS (kvGet kv ("slack-event:" ++ tsv)) = false)
    (hext : (isTruthyS (extractMessage e).1 && isTruthyS (extractMessage e).2.1 &&
        isTruthyS e.user) = true) :
    (handleEventCallback e kv ms1).backgroundTasks = 1 ∧
    (handleEventCallback e (handleEventCallback e kv ms1).kv ms2).backgroundTasks = 0 ∧
    (handleEventCallback e (handleEventCallback e kv ms1).kv ms2).status = 200 ∧
    (handleEventCallback e (handleEventCallback e kv ms1).kv ms2).body = "OK" ∧
    (handleEventCallback e (handleEventCallback e kv ms1).kv ms2).kv =
      (handleEventCallback e kv ms1).kv := by
  have hkey : ∀ ms : Nat, eventKeyOf e ms = "slack-event:" ++ tsv := by
    intro ms
    simp [eventKeyOf, eventIdOf, hts, htsne]
  have h1 : handleEventCallback e kv ms1 =
      ⟨200, "OK", kvPut kv ("slack-event:" ++ tsv) "processed", 1⟩ := by
    unfold handleEventCallback
    rw [hbot, hkey ms1]
    simp [hfresh, hext]
  have hlook : kvGet (kvPut kv ("slack-event:" ++ tsv) "processed")
      ("slack-event:" ++ tsv) = some "processed" := by
    simp [kvGet, kvPut]
  have hlookT : isTruthyS (kvGet (kvPut kv ("slack-event:" ++ tsv) "processed")
      ("slack-event:" ++ tsv)) = true := by
    rw [hlook]; decide
  have h2 : handleEventCallback e
      (kvPut kv ("slack-event:" ++ tsv) "processed") ms2 =
      ⟨200, "OK", kvPut kv ("slack-event:" ++ tsv) "processed", 0⟩ := by
    unfold handleEventCallback
    rw [hbot]
    simp [hkey, hlookT]
  rw [h1, h2]
  exact ⟨rfl, rfl, rfl, rfl, rfl⟩

/-- C6 witness: a concrete direct message dispatched twice starts one
background task on the first call and none on the second. -/
theorem claim_C6_dispatcher_idempotent_witness :
    (handleEventCallback ⟨"message", some ("remind me"), some ("U1"), some ("C1"),
        some ("im"), none, some ("111.22"), none⟩ [] 0).backgroundTasks = 1 ∧
    (handleEventCallback ⟨"message", some ("remind me"), some ("U1"), some ("C1"),
        some ("im"), none, some ("111.22"), none⟩
      (handleEventCallback ⟨"message", some ("remind me"), some ("U1"), some ("C1"),
        some ("im"), none, some ("111.22"), none⟩ [] 0).kv 5).backgroundTasks = 0 ∧
    (handleEventCallback ⟨"message", some ("remind me"), some ("U1"), some ("C1"),
        some ("im"), none, some ("111.22"), none⟩
      (handleEventCallback ⟨"message", some ("remind me"), some ("U1"), some ("C1"),
        some ("im"), none, some ("111.22"), none⟩ [] 0).kv 5).status = 200 ∧
    (handleEventCallback ⟨"message", some ("remind me"), some ("U1"), some ("C1"),
        some ("im"), none, some ("111.22"), none⟩
      (handleEventCallback ⟨"message", some ("remind me"), some ("U1"), some ("C1"),
        some ("im"), none, some ("111.22"), none⟩ [] 0).kv 5).body = "OK" ∧
    (handleEventCallback ⟨"message", some ("remind me"), some ("U1"), some ("C1"),
        some ("im"), none, some ("111.22"), none⟩
      (handleEventCallback ⟨"message", some ("remind me"), some ("U1"), some ("C1"),
        some ("im"), none, some ("111.22"), none⟩ [] 0).kv 5).kv =
      (handleEventCallback ⟨"message", some ("remind me"), some ("U1"), some ("C1"),
        some ("im"), none, some ("111.22"), none⟩ [] 0).kv :=
  claim_C6_dispatcher_idempotent
    ⟨"message", some ("remind me"), some ("U1"), some ("C1"), some ("im"), none,
      some ("111.22"), none⟩ [] 0 5 "111.22" rfl (by decide) (by decide) (by decide)
    (by decide)

/-- C7 counterexample: the claim fails as stated.  For a fresh,
verified, non-bot event whose extraction yields no usable text, the
dispatcher starts no background task but does NOT leave the idempotency
store unchanged: the processed mark is written before extraction. -/
theorem claim_C7_counterexample :
    (handleEventCallback ⟨"message", none, some ("U1"), some ("C1"), some ("im"),
        none, some ("111.22"), none⟩ [] 0).backgroundTasks = 0 ∧
    (handleEventCallback ⟨"message", none, some ("U1"), some ("C1"), some ("im"),
        none, some ("111.22"), none⟩ [] 0).kv ≠ ([] : Kv) := by
  decide

/-- C7 (amended): for every verified, non-bot event callback not yet
marked processed whose extraction yields no usable text, channel or
user identity, the dispatcher acknowledges with OK and starts no
background task; the only external-state change is that the
idempotency store gains the processed mark for the event's key, which
the code writes before extraction. -/
theorem claim_C7_amended (e : SlackEvent) (kv : Kv) (ms : Nat)
    (hbot : isTruthyS e.bot_id = false)
    (hfresh : isTruthyS (kvGet kv (eventKeyOf e ms)) = false)
    (hext : (isTruthyS (extractMessage e).1 && isTruthyS (extractMessage e).2.1 &&
        isTruthyS e.user) = false) :
    handleEventCallback e kv ms =
      ⟨200, "OK", kvPut kv (eventKeyOf e ms) "processed", 0⟩ := by
  unfold handleEventCallback
  rw [hbot]
  simp [hfresh, hext]

/-- C7 witness: a concrete direct message without text is acknowledged
with no background task and exactly the processed mark added. -/
theorem claim_C7_amended_witness :
    handleEventCallback ⟨"message", none, some ("U1"), some ("C1"), some ("im"),
        none, some ("111.22"), none⟩ [] 0 =
      ⟨200, "OK",
        kvPut []
          (eventKeyOf ⟨"message", none, some ("U1"), some ("C1"), some ("im"),
            none, some ("111.22"), none⟩ 0) "processed", 0⟩ :=
  claim_C7_amended
    ⟨"message", none, some ("U1"), some ("C1"), some ("im"), none,
      some ("111.22"), none⟩ [] 0 (by decide) (by decide) (by decide)

/-- C9: the orchestrator's reply computation is total and
deterministic over every engine outcome: the engine is invoked exactly
when the credential is present; an absent credential short-circuits to
the fixed not-configured message without invoking the engine; and the
reply is always one of the fixed not-configured message, the apology
string for a thrown engine error, the trimmed direct text, the joined
tool-result values, or the fixed fallback message. -/
theorem claim_C9_orchestrator_total (key : String) (eng : EngineOutcome) :
    ((generateSlackResponse key eng).engineInvoked = (key != "")) ∧
    (key = "" → generateSlackResponse key eng = ⟨notConfiguredMsg, false⟩) ∧
    ((generateSlackResponse key eng).reply = notConfiguredMsg ∨
      (∃ m, eng = .threw m ∧
        (generateSlackResponse key eng).reply =
          "Sorry, I encountered an error: " ++ m) ∨
      (∃ r t, eng = .ok r ∧ r.text = some t ∧
        (generateSlackResponse key eng).reply = jsTrimS t) ∨
      (∃ r trs, eng = .ok r ∧ r.toolResults = some trs ∧
        (generateSlackResponse key eng).reply = toolResultValues trs) ∨
      (generateSlackResponse key eng).reply = fallbackMsg) := by
  by_cases hk : key = ""
  · subst hk
    refine ⟨by simp [generateSlackResponse], fun _ => by simp [generateSlackResponse], ?_⟩
    left
    simp [generateSlackResponse]
  · have hkb : (key == "") = false := by
      simp [hk]
    have hkt : (key != "") = true := by
      simp [hk]
    refine ⟨?_, fun hcontra => absurd hcontra hk, ?_⟩
    · rw [hkt]
      cases eng <;> simp [generateSlackResponse, hkb]
    · cases eng with
      | threw m =>
        right; left
        exact ⟨m, rfl, by simp [generateSlackResponse, hkb]⟩
      | ok r =>
        have hreply : (generateSlackResponse key (.ok r)).reply = normalizeResult r := by
          simp [generateSlackResponse, hkb]
        have hafter : afterTextFallback r = fallbackMsg ∨
            (∃ trs, r.toolResults = some trs ∧
              afterTextFallback r = toolResultValues trs) := by
          unfold afterTextFallback
          by_cases htc : (match r.toolCalls with
              | some n => decide (0 < n)
              | none => false) = true
          · rw [if_pos htc]
            cases htres : r.toolResults with
            | some trs =>
              by_cases hemp : trs.isEmpty = true
              · left
                simp [hemp]
              · by_cases hval : (toolResultValues trs != "") = true
                · right
                  refine ⟨trs, rfl, ?_⟩
                  simp [hemp, hval]
                · left
                  simp [hemp, hval]
            | none => left; rfl
          · rw [if_neg htc]
            left; rfl
        cases htext : r.text with
        | some t =>
          have hnorm : normalizeResult r =
              if (t != "" && jsTrimS t != "") = true then jsTrimS t
              else afterTextFallback r := by
            unfold normalizeResult
            rw [htext]
          by_cases htr : (t != "" && jsTrimS t != "") = true
          · right; right; left
            exact ⟨r, t, rfl, htext, by rw [hreply, hnorm, if_pos htr]⟩
          · have hr2 : (generateSlackResponse key (.ok r)).reply =
                afterTextFallback r := by
              rw [hreply, hnorm, if_neg htr]
            rcases hafter with hf | ⟨trs, htres, hf⟩
            · right; right; right; right
              rw [hr2, hf]
            · right; right; right; left
              exact ⟨r, trs, rfl, htres, by rw [hr2, hf]⟩
        | none =>
          have hr2 : (generateSlackResponse key (.ok r)).reply =
              afterTextFallback r := by
            rw [hreply]
            unfold normalizeResult
            rw [htext]
          rcases hafter with hf | ⟨trs, htres, hf⟩
          · right; right; right; right
            rw [hr2, hf]
          · right; right; right; left
            exact ⟨r, trs, rfl, htres, by rw [hr2, hf]⟩

/-- C9 witness: with an absent credential the fixed not-configured
message is returned and the engine is not invoked. -/
theorem claim_C9_orchestrator_total_witness :
    generateSlackResponse "" (.threw ("boom")) = ⟨notConfiguredMsg, false⟩ :=
  (claim_C9_orchestrator_total "" (.threw ("boom"))).2.1 rfl

end Arky
